import Mathlib

/-!
Verification of the background file-organizing worker (`OrganizerThread` in
`organizar_fotos.py`) against its natural-language specification.

The worker is embedded shallowly:

* `DateTime` models a Python `datetime` value (only the calendar/clock fields
  the worker reads).
* `ExifInfo` models the outcome of the external calls `Image.open` /
  `img._getexif()`: whether the file opens as an image, and — when EXIF data
  is present — the list of (resolved tag name, parse outcome of the tag
  value) pairs.  A tag value is modelled by the outcome of
  `datetime.strptime(value, "%Y:%m:%d %H:%M:%S")`: `some d` when the string
  is well-formed, `none` when `strptime` raises.
* `FileEntry` models one `(root, filename)` pair yielded by `os.walk`,
  together with the filesystem facts the worker observes about it
  (`os.path.isfile`, modification time, file content) and the outcome of
  the two fallible filesystem operations (`os.makedirs` and
  `shutil.copy2` / `shutil.move`).
* Path manipulation (`os.path.join`, `os.path.dirname`, `os.path.basename`,
  `os.path.splitext`) is embedded from CPython's `posixpath` definitions.
* `str(n)` on a nonnegative int is embedded as `natToDecimal`,
  `f"{n:02d}"` as `pad2`, and `str.lower` as ASCII lowering (the extension
  literals compared against are all ASCII).
* `run` produces the ordered trace of externally visible steps — emissions
  on `log_signal` and `preview_signal`, attempted `makedirs` calls and
  attempted copy/move calls — plus an `Outcome` saying how the run ended.
  The cancellation flag is modelled as the value `flag i` the `i`-th
  `check_stop_flag` call observes (the flag is read under a mutex, once per
  walk entry).
-/

/-- Models a Python `datetime` value: the fields the worker reads. -/
structure DateTime where
  year : Nat
  month : Nat
  day : Nat
  hour : Nat
  minute : Nat
  second : Nat
  deriving Repr, DecidableEq

/-- Models the outcome of `Image.open(photo_path)` and `img._getexif()`.
`opensAsImage = false` means `Image.open` raised.  `exifData = none` means
`_getexif()` returned `None`; otherwise the list holds, in iteration order,
each tag's resolved name (`TAGS.get(tag, tag)`) and the outcome of parsing
its value with `strptime "%Y:%m:%d %H:%M:%S"` (`none` = `strptime` raises). -/
structure ExifInfo where
  opensAsImage : Bool
  exifData : Option (List (String × Option DateTime))
  deriving Repr, DecidableEq

/-- Models one `(root, filename)` walk entry with the filesystem facts the
worker observes about it: `isFile` is `os.path.isfile`, `mtime` the value of
`datetime.fromtimestamp(os.path.getmtime(...))`, `content` the file's bytes,
`makedirsRaises` whether `os.makedirs(..., exist_ok=True)` raises for this
file's destination directory, and `relocateError` is `some errText` when the
`shutil.copy2` / `shutil.move` call raises an exception whose `str` is
`errText`. -/
structure FileEntry where
  root : String
  filename : String
  isFile : Bool
  exif : ExifInfo
  mtime : DateTime
  content : String
  makedirsRaises : Bool
  relocateError : Option String
  deriving Repr, DecidableEq

/-- The Organize Request: `OrganizerThread.__init__`'s parameters. -/
structure Request where
  source_folder : String
  dest_folder : String
  method : String
  copy_files : Bool
  deriving Repr, DecidableEq

/-- One externally visible step of the worker: a `log_signal` emission, a
`preview_signal` emission, an attempted `os.makedirs` call, or an attempted
`shutil.copy2` / `shutil.move` call. -/
inductive Step where
  | log (msg : String)
  | preview (path : String)
  | mkdirs (dir : String)
  | copyFile (src dst : String)
  | moveFile (src dst : String)
  deriving Repr, DecidableEq

/-- How a run ended: normal completion, early return on missing parameters,
early return on an observed stop flag, or an uncaught exception propagating
out of `run` (which kills the thread's run method). -/
inductive Outcome where
  | finished
  | badParams
  | stopped
  | crashed
  deriving Repr, DecidableEq

/-- Models Python `s.startswith("/")`: the first character is `'/'`. -/
def startsWithSlash (s : String) : Bool :=
  s.data.head? == some '/'

/-- Models Python `s.endswith("/")`: the last character is `'/'`. -/
def endsWithSlash (s : String) : Bool :=
  s.data.getLast? == some '/'

/-- One folding step of CPython `posixpath.join`: absolute second component
resets the path; otherwise a `"/"` separator is inserted unless the path so
far is empty or already ends with `"/"`. -/
def joinOne (path b : String) : String :=
  if startsWithSlash b then b
  else if path = "" ∨ endsWithSlash path then path ++ b
  else path ++ "/" ++ b

/-- CPython `posixpath.join(a, *ps)`. -/
def osJoin (a : String) (ps : List String) : String :=
  ps.foldl joinOne a

/-- CPython `posixpath.dirname`: everything up to the last `'/'`, with
trailing separators stripped unless the head is empty or all separators. -/
def dirname (p : String) : String :=
  let headRev := p.data.reverse.dropWhile (fun c => c ≠ '/')
  if headRev.any (fun c => c ≠ '/') then
    String.mk (headRev.dropWhile (fun c => c = '/')).reverse
  else
    String.mk headRev.reverse

/-- CPython `posixpath.basename`: everything after the last `'/'`. -/
def basename (p : String) : String :=
  String.mk (p.data.reverse.takeWhile (fun c => c ≠ '/')).reverse

/-- The extension component of CPython `posixpath.splitext`: the last `'.'`
of the final path component and everything after it, unless the characters
before that dot within the component are all dots (leading dots are not an
extension separator). -/
def splitextExt (p : String) : String :=
  let rbase := p.data.reverse.takeWhile (fun c => c ≠ '/')
  if rbase.contains '.' then
    let afterRev := rbase.takeWhile (fun c => c ≠ '.')
    let before := (rbase.dropWhile (fun c => c ≠ '.')).drop 1
    if before.any (fun c => c ≠ '.') then String.mk ('.' :: afterRev.reverse)
    else ""
  else ""

/-- Models Python `str.lower` on the ASCII range (the worker only compares
lowered extensions against ASCII literals). -/
def lowerStr (s : String) : String :=
  String.mk (s.data.map Char.toLower)

/-- The decimal digit character for `d < 10`. -/
def digitChar (d : Nat) : Char :=
  Char.ofNat (48 + d)

/-- Fuel-indexed most-significant-first decimal digits of `n`; with
`n ≤ fuel` the fuel never runs out. -/
def natDigitsF : Nat → Nat → List Char
  | _, 0 => []
  | 0, _ + 1 => []
  | fuel + 1, n + 1 =>
      natDigitsF fuel ((n + 1) / 10) ++ [digitChar ((n + 1) % 10)]

/-- Models Python `str(n)` for a nonnegative int: plain decimal digits. -/
def natToDecimal (n : Nat) : String :=
  if n = 0 then "0" else String.mk (natDigitsF n n)

/-- Models the Python format `f"{n:02d}"` for a nonnegative int: zero-pad to
two digits. -/
def pad2 (n : Nat) : String :=
  if n < 10 then "0" ++ natToDecimal n else natToDecimal n

/-- The fixed image-extension set of `OrganizerThread.is_image`. -/
def imageExts : List String :=
  [".jpg", ".jpeg", ".png", ".gif", ".bmp", ".tiff", ".webp", ".heic"]

/-- The fixed video-extension set of `OrganizerThread.is_video`. -/
def videoExts : List String :=
  [".mp4", ".mov", ".avi", ".mkv", ".flv"]

/-- `OrganizerThread.is_image`: the lowered extension of the path is in the
fixed image set. -/
def is_image (file_path : String) : Bool :=
  imageExts.contains (lowerStr (splitextExt file_path))

/-- `OrganizerThread.is_video`: the lowered extension of the path is in the
fixed video set. -/
def is_video (file_path : String) : Bool :=
  videoExts.contains (lowerStr (splitextExt file_path))

/-- The first `DateTimeOriginal` entry of the EXIF iteration, if any:
`some v` where `v` is that tag's (parse outcome of the) value. -/
def findDateTimeOriginal : List (String × Option DateTime) → Option (Option DateTime)
  | [] => none
  | (tag, v) :: rest =>
      if tag = "DateTimeOriginal" then some v else findDateTimeOriginal rest

/-- `OrganizerThread.get_photo_date`: return the parsed `DateTimeOriginal`
value when the file opens as an image, carries EXIF data, and the first
`DateTimeOriginal` tag parses; in every other case (open raises, no EXIF
data, tag absent, `strptime` raises — the exception is swallowed by the
bare `except`) fall back to the modification time. -/
def get_photo_date (info : ExifInfo) (mtime : DateTime) : DateTime :=
  if info.opensAsImage then
    match info.exifData with
    | some tags =>
        match findDateTimeOriginal tags with
        | some (some d) => d
        | _ => mtime
    | none => mtime
  else mtime

/-- `OrganizerThread.generate_dest_path`. -/
def generate_dest_path (method dest_folder : String) (photo_date : DateTime)
    (filename : String) : String :=
  if method = "Año/Mes" then
    osJoin dest_folder [natToDecimal photo_date.year, pad2 photo_date.month, filename]
  else if method = "Año/Mes/Día" then
    osJoin dest_folder [natToDecimal photo_date.year, pad2 photo_date.month,
      pad2 photo_date.day, filename]
  else
    osJoin dest_folder ["Evento_Personalizado", filename]

/-- `file_path = os.path.join(root, filename)` for a walk entry. -/
def entryPath (e : FileEntry) : String :=
  joinOne e.root e.filename

/-- The destination path `run` computes for a processed entry. -/
def destOf (req : Request) (e : FileEntry) : String :=
  generate_dest_path req.method req.dest_folder (get_photo_date e.exif e.mtime)
    e.filename

/-- `OrganizerThread.check_stop_flag`: read the stop flag under the mutex.
The flag's value at the `i`-th read is modelled by `flag i`. -/
def check_stop_flag (flag : Nat → Bool) (i : Nat) : Bool :=
  flag i

/-- The steps `run`'s loop body produces for one walk entry once the stop
flag has been found clear, paired with `true` when the body crashes the run
(an uncaught `os.makedirs` exception): skip non-files and non-media files
silently; otherwise emit the preview, attempt `makedirs` (outside the
`try`), and — when that returns — attempt the copy/move inside the `try`,
logging success, or logging the caught error. -/
def processEntry (req : Request) (e : FileEntry) : List Step × Bool :=
  if !e.isFile then ([], false)
  else if !(is_image (entryPath e) || is_video (entryPath e)) then ([], false)
  else
    let fp := entryPath e
    let dest := destOf req e
    let pre := [Step.preview fp, Step.mkdirs (dirname dest)]
    if e.makedirsRaises then (pre, true)
    else
      let rel := if req.copy_files then Step.copyFile fp dest
                 else Step.moveFile fp dest
      let lg := match e.relocateError with
        | some err => Step.log ("❌ Error moviendo " ++ e.filename ++ ": " ++ err)
        | none =>
            if req.copy_files then
              Step.log ("✅ Copiada: " ++ e.filename ++ " -> " ++ dest)
            else
              Step.log ("✅ Movida: " ++ e.filename ++ " -> " ++ dest)
      (pre ++ [rel, lg], false)

/-- The walk loop of `OrganizerThread.run` over the flattened entry list:
check the stop flag once per entry (emitting the stopped log and returning
when set), then run the body; an uncaught body exception aborts the loop. -/
def runLoop (req : Request) (flag : Nat → Bool) :
    List FileEntry → Nat → List Step × Outcome
  | [], _ => ([], Outcome.finished)
  | e :: rest, i =>
      if check_stop_flag flag i then
        ([Step.log "⏹️ Organización detenida."], Outcome.stopped)
      else if (processEntry req e).2 then
        ((processEntry req e).1, Outcome.crashed)
      else
        ((processEntry req e).1 ++ (runLoop req flag rest (i + 1)).1,
         (runLoop req flag rest (i + 1)).2)

/-- `OrganizerThread.run`: validate the two paths, walk the entries, and —
when the loop finishes without stop or crash — emit the completion log.
`entries` is the flattened `(root, filename)` sequence `os.walk` yields. -/
def run (req : Request) (flag : Nat → Bool) (entries : List FileEntry) :
    List Step × Outcome :=
  if req.source_folder = "" ∨ req.dest_folder = "" then
    ([Step.log "⚠️ Debes seleccionar una carpeta de origen y destino."],
     Outcome.badParams)
  else if (runLoop req flag entries 0).2 = Outcome.finished then
    ((runLoop req flag entries 0).1 ++ [Step.log "🎉 Organización completada."],
     Outcome.finished)
  else
    runLoop req flag entries 0

/-- A relocation attempt: an attempted `shutil.copy2` or `shutil.move`. -/
def isRelocStep : Step → Bool
  | Step.copyFile _ _ => true
  | Step.moveFile _ _ => true
  | _ => false

/-- An attempted `shutil.move`. -/
def isMoveStep : Step → Bool
  | Step.moveFile _ _ => true
  | _ => false

/-- A `log_signal` emission. -/
def isLogStep : Step → Bool
  | Step.log _ => true
  | _ => false

/-- The completion log line. -/
def isCompletionLog : Step → Bool
  | Step.log m => m == "🎉 Organización completada."
  | _ => false

/-- The stopped log line. -/
def isStoppedLog : Step → Bool
  | Step.log m => m == "⏹️ Organización detenida."
  | _ => false

/-- A `log_signal` emission starting with the failure cross mark. -/
def isErrorLog : Step → Bool
  | Step.log m => m.data.head? == some '❌'
  | _ => false

/-- An attempted `os.makedirs` call. -/
def isMkdirsStep : Step → Bool
  | Step.mkdirs _ => true
  | _ => false

/-- A per-file success log line (they all start with the check mark). -/
def isSuccessLog : Step → Bool
  | Step.log m => m.data.head? == some '✅'
  | _ => false

/-- A destination tree: each path's content, `none` when absent. -/
def FS : Type := String → Option String

/-- One `shutil.copy2` onto the destination tree: (over)write `dst` with the
source file's content. -/
def applyWrite (fs : FS) (w : String × String) : FS :=
  fun p => if p = w.1 then some w.2 else fs p

/-- Apply a sequence of copies, in order. -/
def applyWrites (ws : List (String × String)) (fs : FS) : FS :=
  ws.foldl applyWrite fs

/-- The last value a write sequence assigns to `p`, if any. -/
def lastVal (p : String) : List (String × String) → Option String
  | [] => none
  | w :: rest =>
      match lastVal p rest with
      | some v => some v
      | none => if p = w.1 then some w.2 else none

/-- The destination writes a fault-free copy-mode pass performs for one walk
entry: media regular files contribute one write of their content at their
computed destination path; everything else contributes nothing. -/
def entryWrites (req : Request) (e : FileEntry) : List (String × String) :=
  if e.isFile && (is_image (entryPath e) || is_video (entryPath e)) then
    [(destOf req e, e.content)]
  else []

/-- The destination writes of a whole fault-free copy-mode run. -/
def runWrites (req : Request) (entries : List FileEntry) :
    List (String × String) :=
  entries.flatMap (fun e => entryWrites req e)

/-- The destination paths of the attempted `shutil.copy2` calls in a trace,
in order. -/
def copyDests : List Step → List String
  | [] => []
  | Step.copyFile _ dst :: rest => dst :: copyDests rest
  | _ :: rest => copyDests rest

/-- The capture-date fields `generate_dest_path` reads for a given method:
year and month for `"Año/Mes"`, year, month and day for `"Año/Mes/Día"`,
nothing for every other method. -/
def dateBucket (method : String) (d : DateTime) : List Nat :=
  if method = "Año/Mes" then [d.year, d.month]
  else if method = "Año/Mes/Día" then [d.year, d.month, d.day]
  else []

/-- Follows the spec's words (§4.2): the embedded capture-time metadata is
available exactly when the file opens as an image and carries a
`DateTimeOriginal` tag with a well-formed value. -/
def specExifDate (info : ExifInfo) : Option DateTime :=
  if info.opensAsImage then
    match info.exifData with
    | some tags => (findDateTimeOriginal tags).join
    | none => none
  else none

/-- Follows the spec's words (§4.2): the capture date is the parsed
`DateTimeOriginal` value when available and the file's last-modified
timestamp otherwise; the fallback is silent (the function is total — no
error escapes to the caller). -/
def specCaptureDate (info : ExifInfo) (mtime : DateTime) : DateTime :=
  match specExifDate info with
  | some d => d
  | none => mtime

/-! ## Helper lemmas: characters of decimal renderings -/

theorem digitChar_isDigit (d : Nat) (h : d < 10) : (digitChar d).isDigit = true := by
  interval_cases d <;> decide

theorem natDigitsF_digits (fuel : Nat) :
    ∀ n, n ≤ fuel → ∀ c ∈ natDigitsF fuel n, c.isDigit = true := by
  induction fuel with
  | zero =>
      intro n hn c hc
      interval_cases n
      simp [natDigitsF] at hc
  | succ f ih =>
      intro n hn c hc
      match n with
      | 0 => simp [natDigitsF] at hc
      | m + 1 =>
          simp only [natDigitsF, List.mem_append, List.mem_singleton] at hc
          rcases hc with hc | hc
          · have hlt := Nat.div_lt_self (show 0 < m + 1 by omega) (show 1 < 10 by omega)
            exact ih ((m + 1) / 10) (by omega) c hc
          · subst hc
            exact digitChar_isDigit _ (Nat.mod_lt _ (by omega))

theorem natToDecimal_digits (n : Nat) : ∀ c ∈ (natToDecimal n).data, c.isDigit = true := by
  intro c hc
  unfold natToDecimal at hc
  by_cases h : n = 0
  · simp [h] at hc
    subst hc; decide
  · simp [h] at hc
    exact natDigitsF_digits n n (Nat.le_refl n) c hc

theorem natToDecimal_ne_nil (n : Nat) : (natToDecimal n).data ≠ [] := by
  unfold natToDecimal
  by_cases h : n = 0
  · simp [h]
  · simp [h]
    match n, h with
    | m + 1, _ => simp [natDigitsF]

theorem pad2_digits (n : Nat) : ∀ c ∈ (pad2 n).data, c.isDigit = true := by
  intro c hc
  unfold pad2 at hc
  by_cases h : n < 10
  · rw [if_pos h, String.data_append] at hc
    rcases List.mem_append.mp hc with hc | hc
    · simp at hc; subst hc; decide
    · exact natToDecimal_digits n c hc
  · rw [if_neg h] at hc
    exact natToDecimal_digits n c hc

theorem pad2_ne_nil (n : Nat) : (pad2 n).data ≠ [] := by
  unfold pad2
  by_cases h : n < 10
  · rw [if_pos h, String.data_append]
    simp
  · rw [if_neg h]; exact natToDecimal_ne_nil n

/-! ## Helper lemmas: path joining -/

theorem char_isDigit_ne_slash {c : Char} (h : c.isDigit = true) : c ≠ '/' := by
  intro h'; subst h'; simp at h

theorem startsWithSlash_of_digits (s : String)
    (hd : ∀ c ∈ s.data, c.isDigit = true) : startsWithSlash s = false := by
  unfold startsWithSlash
  cases hs : s.data with
  | nil => simp
  | cons c l =>
      simp only [List.head?]
      have : c.isDigit = true := hd c (by rw [hs]; simp)
      simp [char_isDigit_ne_slash this]

theorem endsWithSlash_of_digits (s : String)
    (hd : ∀ c ∈ s.data, c.isDigit = true) : endsWithSlash s = false := by
  unfold endsWithSlash
  cases hs : s.data.getLast? with
  | none => simp
  | some c =>
      obtain ⟨hne, heq⟩ := List.mem_getLast?_eq_getLast
        (show c ∈ s.data.getLast? from by rw [hs]; rfl)
      have hc : c ∈ s.data := heq ▸ List.getLast_mem hne
      simp [char_isDigit_ne_slash (hd c hc)]

theorem joinOne_eq (path b : String) (h1 : path ≠ "")
    (h2 : endsWithSlash path = false) (h3 : startsWithSlash b = false) :
    joinOne path b = path ++ "/" ++ b := by
  simp [joinOne, h1, h2, h3]

theorem append_slash_ne_empty (path b : String) : path ++ "/" ++ b ≠ "" := by
  intro h
  have := congrArg String.data h
  rw [String.data_append, String.data_append] at this
  simp at this

theorem endsWithSlash_append (path b : String) (hb : b.data ≠ []) :
    endsWithSlash (path ++ "/" ++ b) = endsWithSlash b := by
  unfold endsWithSlash
  rw [String.data_append, String.data_append, List.append_assoc,
    List.getLast?_append_of_ne_nil _ (by simp [hb]),
    List.getLast?_append_of_ne_nil _ hb]

theorem osJoin_three (dest y m f : String)
    (hdne : dest ≠ "") (hdend : endsWithSlash dest = false)
    (hy1 : startsWithSlash y = false) (hy2 : endsWithSlash y = false)
    (hy3 : y.data ≠ [])
    (hm1 : startsWithSlash m = false) (hm2 : endsWithSlash m = false)
    (hm3 : m.data ≠ [])
    (hf : startsWithSlash f = false) :
    osJoin dest [y, m, f] = dest ++ "/" ++ y ++ "/" ++ m ++ "/" ++ f := by
  show joinOne (joinOne (joinOne dest y) m) f = _
  rw [joinOne_eq dest y hdne hdend hy1]
  rw [joinOne_eq _ m (append_slash_ne_empty _ _)
    (by rw [endsWithSlash_append _ _ hy3]; exact hy2) hm1]
  rw [joinOne_eq _ f (append_slash_ne_empty _ _)
    (by rw [endsWithSlash_append _ _ hm3]; exact hm2) hf]

theorem endsWithSlash_append_plain (a b : String) (hb : b.data ≠ []) :
    endsWithSlash (a ++ b) = endsWithSlash b := by
  unfold endsWithSlash
  rw [String.data_append, List.getLast?_append_of_ne_nil _ hb]

theorem startsWithSlash_of_not_mem (s : String) (h : '/' ∉ s.data) :
    startsWithSlash s = false := by
  unfold startsWithSlash
  cases hs : s.data with
  | nil => simp
  | cons c l =>
      have : c ≠ '/' := fun hc => h (by rw [hs, hc]; simp)
      simp [List.head?, this]

theorem joinOne_ne_empty (path b : String) (hb : b.data ≠ []) :
    joinOne path b ≠ "" := by
  unfold joinOne
  intro h
  split at h
  · exact hb (congrArg String.data h)
  · split at h
    · have := congrArg String.data h
      rw [String.data_append] at this
      simp at this
      exact hb this.2
    · exact append_slash_ne_empty _ _ h

theorem endsWithSlash_joinOne (path b : String) (hb : b.data ≠ []) :
    endsWithSlash (joinOne path b) = endsWithSlash b := by
  unfold joinOne
  split
  · rfl
  · split
    · exact endsWithSlash_append_plain _ _ hb
    · exact endsWithSlash_append _ _ hb

theorem data_prefix_joinOne (path b : String) (hb : startsWithSlash b = false) :
    path.data <+: (joinOne path b).data := by
  unfold joinOne
  rw [hb]
  simp only [Bool.false_eq_true, if_false]
  split
  · rw [String.data_append]
    exact List.prefix_append _ _
  · rw [String.data_append, String.data_append, List.append_assoc]
    exact List.prefix_append _ _

theorem data_prefix_osJoin (dest : String) (comps : List String)
    (h : ∀ c ∈ comps, startsWithSlash c = false) :
    dest.data <+: (osJoin dest comps).data := by
  induction comps generalizing dest with
  | nil => exact List.prefix_refl _
  | cons c rest ih =>
      have h1 : startsWithSlash c = false := h c (by simp)
      have h2 := ih (joinOne dest c) (fun x hx => h x (by simp [hx]))
      exact (data_prefix_joinOne dest c h1).trans h2

theorem takeWhile_all_append_cons (p : Char → Bool) (l₁ : List Char) (c : Char)
    (l₂ : List Char) (h : ∀ x ∈ l₁, p x) (hc : p c = false) :
    (l₁ ++ c :: l₂).takeWhile p = l₁ := by
  induction l₁ with
  | nil => simp [List.takeWhile, hc]
  | cons a l ih =>
      simp only [List.cons_append, List.takeWhile]
      rw [h a (by simp)]
      simp only [List.cons.injEq, true_and]
      exact ih (fun x hx => h x (by simp [hx]))

theorem basename_append (prev f : String) (hf : '/' ∉ f.data) :
    basename (prev ++ "/" ++ f) = f := by
  unfold basename
  rw [String.data_append, String.data_append, List.append_assoc]
  have : (prev.data ++ (['/'] ++ f.data)).reverse
      = f.data.reverse ++ '/' :: prev.data.reverse := by
    simp
  rw [this, takeWhile_all_append_cons _ _ _ _
    (fun x hx => by
      have hxf : x ∈ f.data := List.mem_reverse.mp hx
      have : x ≠ '/' := fun hc => hf (hc ▸ hxf)
      simp [this])
    (by simp)]
  rw [List.reverse_reverse]

theorem osJoin_four (dest y m d f : String)
    (hdne : dest ≠ "") (hdend : endsWithSlash dest = false)
    (hy1 : startsWithSlash y = false) (hy2 : endsWithSlash y = false)
    (hy3 : y.data ≠ [])
    (hm1 : startsWithSlash m = false) (hm2 : endsWithSlash m = false)
    (hm3 : m.data ≠ [])
    (hd1 : startsWithSlash d = false) (hd2 : endsWithSlash d = false)
    (hd3 : d.data ≠ [])
    (hf : startsWithSlash f = false) :
    osJoin dest [y, m, d, f] =
      dest ++ "/" ++ y ++ "/" ++ m ++ "/" ++ d ++ "/" ++ f := by
  show joinOne (joinOne (joinOne (joinOne dest y) m) d) f = _
  rw [joinOne_eq dest y hdne hdend hy1]
  rw [joinOne_eq _ m (append_slash_ne_empty _ _)
    (by rw [endsWithSlash_append _ _ hy3]; exact hy2) hm1]
  rw [joinOne_eq _ d (append_slash_ne_empty _ _)
    (by rw [endsWithSlash_append _ _ hm3]; exact hm2) hd1]
  rw [joinOne_eq _ f (append_slash_ne_empty _ _)
    (by rw [endsWithSlash_append _ _ hd3]; exact hd2) hf]

theorem pad2_length (n : Nat) (h : n ≤ 99) : (pad2 n).length = 2 := by
  interval_cases n <;> decide

/-- C3: for every capture date and filename, the computed destination path
is `<dest>/<year>/<MM>/<f>` for method `"Año/Mes"` (the Year/Month method),
`<dest>/<year>/<MM>/<DD>/<f>` for `"Año/Mes/Día"` (Year/Month/Day), and
`<dest>/Evento_Personalizado/<f>` for any other method value, with month and
day zero-padded to exactly two digits; the path is built from the method,
the destination root, the capture date and the bare filename only, so the
source file's original subdirectory nesting never appears in it.  The
hypotheses say the destination root is a nonempty path without a trailing
separator and the filename is not an absolute path — both guaranteed for
names yielded by `os.walk`. -/
theorem c3_dest_path_law (method dest f : String) (d : DateTime)
    (hdne : dest ≠ "") (hdend : endsWithSlash dest = false)
    (hf : startsWithSlash f = false)
    (hmonth : d.month ≤ 12) (hday : d.day ≤ 31) :
    generate_dest_path method dest d f =
      (if method = "Año/Mes" then
        dest ++ "/" ++ natToDecimal d.year ++ "/" ++ pad2 d.month ++ "/" ++ f
      else if method = "Año/Mes/Día" then
        dest ++ "/" ++ natToDecimal d.year ++ "/" ++ pad2 d.month ++ "/"
          ++ pad2 d.day ++ "/" ++ f
      else
        dest ++ "/" ++ "Evento_Personalizado" ++ "/" ++ f)
    ∧ (pad2 d.month).length = 2 ∧ (pad2 d.day).length = 2 := by
  refine ⟨?_, pad2_length _ (by omega), pad2_length _ (by omega)⟩
  by_cases h1 : method = "Año/Mes"
  · rw [if_pos h1]
    unfold generate_dest_path
    rw [if_pos h1]
    exact osJoin_three dest _ _ f hdne hdend
      (startsWithSlash_of_digits _ (natToDecimal_digits _))
      (endsWithSlash_of_digits _ (natToDecimal_digits _))
      (natToDecimal_ne_nil _)
      (startsWithSlash_of_digits _ (pad2_digits _))
      (endsWithSlash_of_digits _ (pad2_digits _))
      (pad2_ne_nil _) hf
  · by_cases h2 : method = "Año/Mes/Día"
    · rw [if_neg h1, if_pos h2]
      unfold generate_dest_path
      rw [if_neg h1, if_pos h2]
      exact osJoin_four dest _ _ _ f hdne hdend
        (startsWithSlash_of_digits _ (natToDecimal_digits _))
        (endsWithSlash_of_digits _ (natToDecimal_digits _))
        (natToDecimal_ne_nil _)
        (startsWithSlash_of_digits _ (pad2_digits _))
        (endsWithSlash_of_digits _ (pad2_digits _))
        (pad2_ne_nil _)
        (startsWithSlash_of_digits _ (pad2_digits _))
        (endsWithSlash_of_digits _ (pad2_digits _))
        (pad2_ne_nil _) hf
    · rw [if_neg h1, if_neg h2]
      unfold generate_dest_path
      rw [if_neg h1, if_neg h2]
      show joinOne (joinOne dest "Evento_Personalizado") f = _
      rw [joinOne_eq dest _ hdne hdend (by decide)]
      rw [joinOne_eq _ f (append_slash_ne_empty _ _)
        (by rw [endsWithSlash_append _ _ (by decide)]; decide) hf]

theorem c3_dest_path_law_witness :
    generate_dest_path "Año/Mes" "d" ⟨2021, 5, 3, 10, 0, 0⟩ "a.jpg" =
      (if ("Año/Mes" : String) = "Año/Mes" then
        "d" ++ "/" ++ natToDecimal 2021 ++ "/" ++ pad2 5 ++ "/" ++ "a.jpg"
      else if ("Año/Mes" : String) = "Año/Mes/Día" then
        "d" ++ "/" ++ natToDecimal 2021 ++ "/" ++ pad2 5 ++ "/"
          ++ pad2 3 ++ "/" ++ "a.jpg"
      else
        "d" ++ "/" ++ "Evento_Personalizado" ++ "/" ++ "a.jpg")
    ∧ (pad2 5).length = 2 ∧ (pad2 3).length = 2 :=
  c3_dest_path_law "Año/Mes" "d" "a.jpg" ⟨2021, 5, 3, 10, 0, 0⟩
    (by decide) (by decide) (by decide) (by decide) (by decide)

/-- C9: for every method value, capture date and filename (a bare name, as
`os.walk` yields: no `'/'` in it), the computed destination path has the
destination root as a prefix and the unmodified filename as its last path
component; and for two capture dates that agree on the fields the method
buckets by, the destination paths coincide — so two source files with the
same basename and the same capture-date bucket map to the same destination
path. -/
theorem c9_dest_prefix_basename (method dest f : String) (d d' : DateTime)
    (hf : '/' ∉ f.data)
    (hbucket : dateBucket method d = dateBucket method d') :
    dest.data <+: (generate_dest_path method dest d f).data
    ∧ basename (generate_dest_path method dest d f) = f
    ∧ generate_dest_path method dest d f = generate_dest_path method dest d' f := by
  have hfs : startsWithSlash f = false := startsWithSlash_of_not_mem f hf
  by_cases h1 : method = "Año/Mes"
  · simp only [generate_dest_path, dateBucket, if_pos h1] at hbucket ⊢
    simp only [List.cons.injEq, and_true] at hbucket
    obtain ⟨hyear, hmonth⟩ := hbucket
    refine ⟨?_, ?_, ?_⟩
    · refine data_prefix_osJoin dest _ ?_
      intro c hc
      simp only [List.mem_cons, List.not_mem_nil, or_false] at hc
      rcases hc with hc | hc | hc <;> subst hc
      · exact startsWithSlash_of_digits _ (natToDecimal_digits _)
      · exact startsWithSlash_of_digits _ (pad2_digits _)
      · exact hfs
    · show basename (joinOne (joinOne (joinOne dest _) _) f) = f
      rw [joinOne_eq _ f
        (joinOne_ne_empty _ _ (pad2_ne_nil _))
        (by rw [endsWithSlash_joinOne _ _ (pad2_ne_nil _)]
            exact endsWithSlash_of_digits _ (pad2_digits _))
        hfs]
      exact basename_append _ f hf
    · rw [hyear, hmonth]
  · by_cases h2 : method = "Año/Mes/Día"
    · simp only [generate_dest_path, dateBucket, if_neg h1, if_pos h2] at hbucket ⊢
      simp only [List.cons.injEq, and_true] at hbucket
      obtain ⟨hyear, hmonth, hday⟩ := hbucket
      refine ⟨?_, ?_, ?_⟩
      · refine data_prefix_osJoin dest _ ?_
        intro c hc
        simp only [List.mem_cons, List.not_mem_nil, or_false] at hc
        rcases hc with hc | hc | hc | hc <;> subst hc
        · exact startsWithSlash_of_digits _ (natToDecimal_digits _)
        · exact startsWithSlash_of_digits _ (pad2_digits _)
        · exact startsWithSlash_of_digits _ (pad2_digits _)
        · exact hfs
      · show basename (joinOne (joinOne (joinOne (joinOne dest _) _) _) f) = f
        rw [joinOne_eq _ f
          (joinOne_ne_empty _ _ (pad2_ne_nil _))
          (by rw [endsWithSlash_joinOne _ _ (pad2_ne_nil _)]
              exact endsWithSlash_of_digits _ (pad2_digits _))
          hfs]
        exact basename_append _ f hf
      · rw [hyear, hmonth, hday]
    · simp only [generate_dest_path, if_neg h1, if_neg h2]
      refine ⟨?_, ?_, trivial⟩
      · refine data_prefix_osJoin dest _ ?_
        intro c hc
        simp only [List.mem_cons, List.not_mem_nil, or_false] at hc
        rcases hc with hc | hc <;> subst hc
        · decide
        · exact hfs
      · show basename (joinOne (joinOne dest "Evento_Personalizado") f) = f
        rw [joinOne_eq _ f
          (joinOne_ne_empty _ _ (by decide))
          (by rw [endsWithSlash_joinOne _ _ (by decide)]; decide)
          hfs]
        exact basename_append _ f hf

theorem c9_dest_prefix_basename_witness :
    ("" : String).data <+:
      (generate_dest_path "Año/Mes" "" ⟨2021, 5, 3, 0, 0, 0⟩ "a.jpg").data
    ∧ basename (generate_dest_path "Año/Mes" "" ⟨2021, 5, 3, 0, 0, 0⟩ "a.jpg")
        = "a.jpg"
    ∧ generate_dest_path "Año/Mes" "" ⟨2021, 5, 3, 0, 0, 0⟩ "a.jpg"
        = generate_dest_path "Año/Mes" "" ⟨2021, 5, 9, 23, 59, 59⟩ "a.jpg" :=
  c9_dest_prefix_basename "Año/Mes" "" "a.jpg" ⟨2021, 5, 3, 0, 0, 0⟩
    ⟨2021, 5, 9, 23, 59, 59⟩ (by decide) (by decide)

/-! ## Helper lemmas: log-message heads and per-entry traces -/

theorem data_append_ne_nil (a x : String) (h : a.data ≠ []) :
    (a ++ x).data ≠ [] := by
  rw [String.data_append]
  simp [h]

theorem data_head?_append (a x : String) (h : a.data ≠ []) :
    (a ++ x).data.head? = a.data.head? := by
  rw [String.data_append]
  exact List.head?_append_of_ne_nil _ h

theorem ne_of_data_head_ne (s t : String) (h : s.data.head? ≠ t.data.head?) :
    s ≠ t :=
  fun he => h (by rw [he])

theorem head_msg3 (lit f s2 d2 : String) (h : lit.data ≠ []) :
    (lit ++ f ++ s2 ++ d2).data.head? = lit.data.head? := by
  rw [data_head?_append _ _ (data_append_ne_nil _ _ (data_append_ne_nil _ _ h)),
    data_head?_append _ _ (data_append_ne_nil _ _ h),
    data_head?_append _ _ h]

theorem processEntry_skip_nonfile (req : Request) (e : FileEntry)
    (h : e.isFile = false) : processEntry req e = ([], false) := by
  unfold processEntry
  rw [h]
  rfl

theorem processEntry_skip_nonmedia (req : Request) (e : FileEntry)
    (h : (is_image (entryPath e) || is_video (entryPath e)) = false) :
    processEntry req e = ([], false) := by
  unfold processEntry
  rw [h]
  split <;> rfl

theorem processEntry_media_crash (req : Request) (e : FileEntry)
    (hfile : e.isFile = true)
    (hmedia : (is_image (entryPath e) || is_video (entryPath e)) = true)
    (hmk : e.makedirsRaises = true) :
    processEntry req e
      = ([Step.preview (entryPath e), Step.mkdirs (dirname (destOf req e))],
         true) := by
  unfold processEntry
  rw [hfile, hmedia, hmk]
  rfl

theorem processEntry_media_ok (req : Request) (e : FileEntry)
    (hfile : e.isFile = true)
    (hmedia : (is_image (entryPath e) || is_video (entryPath e)) = true)
    (hmk : e.makedirsRaises = false) :
    processEntry req e
      = ([Step.preview (entryPath e), Step.mkdirs (dirname (destOf req e)),
          (if req.copy_files then Step.copyFile (entryPath e) (destOf req e)
           else Step.moveFile (entryPath e) (destOf req e)),
          (match e.relocateError with
           | some err =>
               Step.log ("❌ Error moviendo " ++ e.filename ++ ": " ++ err)
           | none =>
               if req.copy_files then
                 Step.log ("✅ Copiada: " ++ e.filename ++ " -> " ++ destOf req e)
               else
                 Step.log ("✅ Movida: " ++ e.filename ++ " -> " ++ destOf req e))],
         false) := by
  unfold processEntry
  rw [hfile, hmedia, hmk]
  rfl

theorem processEntry_snd (req : Request) (e : FileEntry) :
    (processEntry req e).2
      = (e.isFile && (is_image (entryPath e) || is_video (entryPath e))
          && e.makedirsRaises) := by
  cases hfile : e.isFile with
  | false => rw [processEntry_skip_nonfile req e hfile]; rfl
  | true =>
      cases hmedia : (is_image (entryPath e) || is_video (entryPath e)) with
      | false => rw [processEntry_skip_nonmedia req e hmedia]; rfl
      | true =>
          cases hmk : e.makedirsRaises with
          | false => rw [processEntry_media_ok req e hfile hmedia hmk]; rfl
          | true => rw [processEntry_media_crash req e hfile hmedia hmk]; rfl

theorem runLoop_cons_stop (req : Request) (flag : Nat → Bool) (e : FileEntry)
    (rest : List FileEntry) (i : Nat) (hflag : flag i = true) :
    runLoop req flag (e :: rest) i
      = ([Step.log "⏹️ Organización detenida."], Outcome.stopped) := by
  conv_lhs => rw [runLoop]
  simp only [check_stop_flag, hflag, if_true]

theorem runLoop_cons_go (req : Request) (flag : Nat → Bool) (e : FileEntry)
    (rest : List FileEntry) (i : Nat) (hflag : flag i = false) :
    runLoop req flag (e :: rest) i
      = (if (processEntry req e).2 then ((processEntry req e).1, Outcome.crashed)
         else ((processEntry req e).1 ++ (runLoop req flag rest (i + 1)).1,
               (runLoop req flag rest (i + 1)).2)) := by
  conv_lhs => rw [runLoop]
  simp only [check_stop_flag, hflag, Bool.false_eq_true, if_false]

theorem runLoop_all_ok (req : Request) (flag : Nat → Bool)
    (hflag : ∀ j, flag j = false) :
    ∀ (entries : List FileEntry) (i : Nat),
      (∀ e ∈ entries, (processEntry req e).2 = false) →
      runLoop req flag entries i
        = (entries.flatMap (fun e => (processEntry req e).1), Outcome.finished) := by
  intro entries
  induction entries with
  | nil => intro i h; rfl
  | cons e rest ih =>
      intro i h
      rw [runLoop_cons_go req flag e rest i (hflag i)]
      rw [h e (List.mem_cons_self e rest)]
      rw [ih (i + 1) (fun x hx => h x (List.mem_cons_of_mem e hx))]
      simp

theorem run_valid (req : Request) (flag : Nat → Bool) (entries : List FileEntry)
    (hs : req.source_folder ≠ "") (hd : req.dest_folder ≠ "") :
    run req flag entries
      = (if (runLoop req flag entries 0).2 = Outcome.finished then
          ((runLoop req flag entries 0).1
            ++ [Step.log "🎉 Organización completada."], Outcome.finished)
         else runLoop req flag entries 0) := by
  unfold run
  rw [if_neg (not_or.mpr ⟨hs, hd⟩)]

theorem isCompletionLog_log_false (m : String) (c : Char)
    (hm : m.data.head? = some c) (hc : c ≠ '🎉') :
    isCompletionLog (Step.log m) = false := by
  unfold isCompletionLog
  rw [beq_eq_false_iff_ne]
  refine ne_of_data_head_ne m _ ?_
  have hlit : ("🎉 Organización completada." : String).data.head? = some '🎉' := rfl
  rw [hm, hlit]
  exact fun h => hc (Option.some.inj h)

theorem processEntry_no_completion (req : Request) (e : FileEntry) :
    ((processEntry req e).1.countP isCompletionLog) = 0 := by
  cases hfile : e.isFile with
  | false => rw [processEntry_skip_nonfile req e hfile]; rfl
  | true =>
      cases hmedia : (is_image (entryPath e) || is_video (entryPath e)) with
      | false => rw [processEntry_skip_nonmedia req e hmedia]; rfl
      | true =>
          cases hmk : e.makedirsRaises with
          | true => rw [processEntry_media_crash req e hfile hmedia hmk]; rfl
          | false =>
              rw [processEntry_media_ok req e hfile hmedia hmk]
              have h1 : isCompletionLog (Step.preview (entryPath e)) = false := rfl
              have h2 : isCompletionLog (Step.mkdirs (dirname (destOf req e)))
                  = false := rfl
              have h3 : isCompletionLog
                  (if req.copy_files then Step.copyFile (entryPath e) (destOf req e)
                   else Step.moveFile (entryPath e) (destOf req e)) = false := by
                cases req.copy_files <;> rfl
              have h4 : isCompletionLog
                  (match e.relocateError with
                   | some err =>
                       Step.log ("❌ Error moviendo " ++ e.filename ++ ": " ++ err)
                   | none =>
                       if req.copy_files then
                         Step.log ("✅ Copiada: " ++ e.filename ++ " -> " ++ destOf req e)
                       else
                         Step.log ("✅ Movida: " ++ e.filename ++ " -> " ++ destOf req e))
                  = false := by
                cases e.relocateError with
                | some err =>
                    exact isCompletionLog_log_false _ '❌'
                      ((head_msg3 "❌ Error moviendo " _ _ _ (by decide)).trans rfl)
                      (by decide)
                | none =>
                    cases req.copy_files with
                    | false =>
                        exact isCompletionLog_log_false _ '✅'
                          ((head_msg3 "✅ Movida: " _ _ _ (by decide)).trans rfl)
                          (by decide)
                    | true =>
                        exact isCompletionLog_log_false _ '✅'
                          ((head_msg3 "✅ Copiada: " _ _ _ (by decide)).trans rfl)
                          (by decide)
              simp [List.countP_cons, h1, h2, h3, h4]

theorem runLoop_no_completion (req : Request) (flag : Nat → Bool) :
    ∀ (entries : List FileEntry) (i : Nat),
      ((runLoop req flag entries i).1.countP isCompletionLog) = 0 := by
  intro entries
  induction entries with
  | nil => intro i; rfl
  | cons e rest ih =>
      intro i
      cases hflag : flag i with
      | true => rw [runLoop_cons_stop req flag e rest i hflag]; rfl
      | false =>
          rw [runLoop_cons_go req flag e rest i hflag]
          split
          · exact processEntry_no_completion req e
          · simp only [List.countP_append]
            rw [processEntry_no_completion req e, ih (i + 1)]

/-- C7: for every run with non-empty source and destination paths whose walk
loop ends in the `finished` outcome — i.e. the traversal completed and no
stop-flag read ever returned true (an observed flag yields the `stopped`
outcome instead) — `run` appends exactly one completion log after the whole
loop trace: the completion notification is emitted exactly once, after all
per-file notifications. -/
theorem c7_completion_last (req : Request) (flag : Nat → Bool)
    (entries : List FileEntry)
    (hs : req.source_folder ≠ "") (hd : req.dest_folder ≠ "")
    (hfin : (runLoop req flag entries 0).2 = Outcome.finished) :
    run req flag entries
      = ((runLoop req flag entries 0).1
          ++ [Step.log "🎉 Organización completada."], Outcome.finished)
    ∧ (run req flag entries).1.countP isCompletionLog = 1
    ∧ ((runLoop req flag entries 0).1.countP isCompletionLog = 0) := by
  have h1 : run req flag entries
      = ((runLoop req flag entries 0).1
          ++ [Step.log "🎉 Organización completada."], Outcome.finished) := by
    rw [run_valid req flag entries hs hd, if_pos hfin]
  refine ⟨h1, ?_, runLoop_no_completion req flag entries 0⟩
  rw [h1]
  simp only [List.countP_append]
  rw [runLoop_no_completion req flag entries 0]
  rfl

theorem c7_completion_last_witness :
    run ⟨"s", "d", "Año/Mes", true⟩ (fun _ => false) []
      = ((runLoop ⟨"s", "d", "Año/Mes", true⟩ (fun _ => false) [] 0).1
          ++ [Step.log "🎉 Organización completada."], Outcome.finished)
    ∧ (run ⟨"s", "d", "Año/Mes", true⟩ (fun _ => false) []).1.countP
        isCompletionLog = 1
    ∧ ((runLoop ⟨"s", "d", "Año/Mes", true⟩ (fun _ => false) [] 0).1.countP
        isCompletionLog = 0) :=
  c7_completion_last ⟨"s", "d", "Año/Mes", true⟩ (fun _ => false) []
    (by decide) (by decide) (by decide)

/-- C2 counterexample: with the stop flag set before the run starts but an
empty (or file-less) source tree, the walk loop never checks the flag, so
`run` emits the completion notification and zero "stopped" notifications —
not the single "stopped" notification the claim requires for every source
tree. -/
theorem c2_counterexample :
    run ⟨"s", "d", "Año/Mes", true⟩ (fun _ => true) []
      = ([Step.log "🎉 Organización completada."], Outcome.finished)
    ∧ (run ⟨"s", "d", "Año/Mes", true⟩ (fun _ => true) []).1.countP
        isStoppedLog = 0 := by
  decide

/-- C2 amended: if the cancellation flag is set before any file is processed
and the walk yields at least one entry, `run` performs zero relocations and
emits exactly one "stopped" log notification (its whole trace is that single
log line); when the walk yields no entries the flag is never checked and the
completion notification is emitted instead. -/
theorem c2_amended_stop_before_first_file (req : Request) (flag : Nat → Bool)
    (e : FileEntry) (rest : List FileEntry)
    (hs : req.source_folder ≠ "") (hd : req.dest_folder ≠ "")
    (hflag : flag 0 = true) :
    run req flag (e :: rest)
      = ([Step.log "⏹️ Organización detenida."], Outcome.stopped)
    ∧ (run req flag (e :: rest)).1.countP isRelocStep = 0
    ∧ (run req flag (e :: rest)).1.countP isStoppedLog = 1 := by
  have h1 : run req flag (e :: rest)
      = ([Step.log "⏹️ Organización detenida."], Outcome.stopped) := by
    rw [run_valid req flag (e :: rest) hs hd,
      runLoop_cons_stop req flag e rest 0 hflag]
    rfl
  refine ⟨h1, ?_, ?_⟩ <;> rw [h1] <;> rfl

theorem c2_amended_stop_witness :
    run ⟨"s", "d", "Año/Mes", true⟩ (fun _ => true)
        [⟨"s", "a.jpg", true, ⟨false, none⟩, ⟨2020, 1, 15, 0, 0, 0⟩, "x",
          false, none⟩]
      = ([Step.log "⏹️ Organización detenida."], Outcome.stopped)
    ∧ (run ⟨"s", "d", "Año/Mes", true⟩ (fun _ => true)
        [⟨"s", "a.jpg", true, ⟨false, none⟩, ⟨2020, 1, 15, 0, 0, 0⟩, "x",
          false, none⟩]).1.countP isRelocStep = 0
    ∧ (run ⟨"s", "d", "Año/Mes", true⟩ (fun _ => true)
        [⟨"s", "a.jpg", true, ⟨false, none⟩, ⟨2020, 1, 15, 0, 0, 0⟩, "x",
          false, none⟩]).1.countP isStoppedLog = 1 :=
  c2_amended_stop_before_first_file ⟨"s", "d", "Año/Mes", true⟩ (fun _ => true)
    ⟨"s", "a.jpg", true, ⟨false, none⟩, ⟨2020, 1, 15, 0, 0, 0⟩, "x", false,
      none⟩ [] (by decide) (by decide) rfl

/-- C6: whenever the source or destination path is empty, `run` emits
exactly one log notification (the missing-parameter warning) and terminates
immediately with the `badParams` outcome: its trace is that single log line,
so it contains zero relocation attempts and zero directory-creation
attempts — no filesystem modification of any kind. -/
theorem c6_missing_params (req : Request) (flag : Nat → Bool)
    (entries : List FileEntry)
    (h : req.source_folder = "" ∨ req.dest_folder = "") :
    run req flag entries
      = ([Step.log "⚠️ Debes seleccionar una carpeta de origen y destino."],
         Outcome.badParams)
    ∧ (run req flag entries).1.countP isLogStep = 1
    ∧ (run req flag entries).1.countP isRelocStep = 0
    ∧ (run req flag entries).1.countP isMkdirsStep = 0 := by
  have h1 : run req flag entries
      = ([Step.log "⚠️ Debes seleccionar una carpeta de origen y destino."],
         Outcome.badParams) := by
    unfold run
    rw [if_pos h]
  refine ⟨h1, ?_, ?_, ?_⟩ <;> rw [h1] <;> rfl

theorem c6_missing_params_witness :
    run ⟨"", "d", "Año/Mes", true⟩ (fun _ => false) []
      = ([Step.log "⚠️ Debes seleccionar una carpeta de origen y destino."],
         Outcome.badParams)
    ∧ (run ⟨"", "d", "Año/Mes", true⟩ (fun _ => false) []).1.countP
        isLogStep = 1
    ∧ (run ⟨"", "d", "Año/Mes", true⟩ (fun _ => false) []).1.countP
        isRelocStep = 0
    ∧ (run ⟨"", "d", "Año/Mes", true⟩ (fun _ => false) []).1.countP
        isMkdirsStep = 0 :=
  c6_missing_params ⟨"", "d", "Año/Mes", true⟩ (fun _ => false) []
    (Or.inl rfl)

/-- C10: with non-empty source and destination paths, a walk that yields no
entries — `os.walk` of a nonexistent source directory yields nothing (its
default `onerror=None` swallows the scandir error), as does a source tree
containing no files — makes `run` perform zero relocations, emit no error
notification, and emit the single completion notification: exactly the
outcome of a successful run over an empty tree. -/
theorem c10_empty_tree (req : Request) (flag : Nat → Bool)
    (hs : req.source_folder ≠ "") (hd : req.dest_folder ≠ "") :
    run req flag []
      = ([Step.log "🎉 Organización completada."], Outcome.finished)
    ∧ (run req flag []).1.countP isRelocStep = 0
    ∧ (run req flag []).1.countP isErrorLog = 0
    ∧ (run req flag []).1.countP isCompletionLog = 1 := by
  have h1 : run req flag []
      = ([Step.log "🎉 Organización completada."], Outcome.finished) := by
    rw [run_valid req flag [] hs hd]
    rfl
  refine ⟨h1, ?_, ?_, ?_⟩ <;> rw [h1] <;> rfl

theorem c10_empty_tree_witness :
    run ⟨"missing_dir", "d", "Año/Mes", true⟩ (fun _ => false) []
      = ([Step.log "🎉 Organización completada."], Outcome.finished)
    ∧ (run ⟨"missing_dir", "d", "Año/Mes", true⟩ (fun _ => false) []).1.countP
        isRelocStep = 0
    ∧ (run ⟨"missing_dir", "d", "Año/Mes", true⟩ (fun _ => false) []).1.countP
        isErrorLog = 0
    ∧ (run ⟨"missing_dir", "d", "Año/Mes", true⟩ (fun _ => false) []).1.countP
        isCompletionLog = 1 :=
  c10_empty_tree ⟨"missing_dir", "d", "Año/Mes", true⟩ (fun _ => false)
    (by decide) (by decide)

/-- C1 counterexample: a single image file whose destination-directory
creation (`os.makedirs`, line 50 — outside the `try` of lines 52–60) raises.
The exception is not caught: the run ends with the `crashed` outcome, no
failure log at all is emitted (the trace contains zero log lines), and no
subsequent candidate would be processed. -/
theorem c1_counterexample :
    run ⟨"s", "d", "Año/Mes", true⟩ (fun _ => false)
        [⟨"s", "a.jpg", true, ⟨false, none⟩, ⟨2020, 1, 15, 0, 0, 0⟩, "x",
          true, none⟩]
      = ([Step.preview "s/a.jpg", Step.mkdirs "d/2020/01"], Outcome.crashed)
    ∧ (run ⟨"s", "d", "Año/Mes", true⟩ (fun _ => false)
        [⟨"s", "a.jpg", true, ⟨false, none⟩, ⟨2020, 1, 15, 0, 0, 0⟩, "x",
          true, none⟩]).1.countP isLogStep = 0 := by
  decide

/-- C1 amended: for a media file candidate reached with the stop flag clear,
an exception raised by the copy/move itself is caught inside `run`: a
failure log naming the file and the error text is emitted and the loop
continues with the remaining candidates; but an exception raised by the
destination-directory creation is not caught — the run stops right after
the attempted `makedirs`, with no failure log. -/
theorem c1_amended_error_handling (req : Request) (flag : Nat → Bool)
    (e : FileEntry) (rest : List FileEntry) (i : Nat) (err : String)
    (hflag : flag i = false) (hfile : e.isFile = true)
    (hmedia : (is_image (entryPath e) || is_video (entryPath e)) = true)
    (herr : e.relocateError = some err) :
    runLoop req flag (e :: rest) i
      = (if e.makedirsRaises then
          ([Step.preview (entryPath e), Step.mkdirs (dirname (destOf req e))],
           Outcome.crashed)
        else
          ([Step.preview (entryPath e), Step.mkdirs (dirname (destOf req e)),
            (if req.copy_files then Step.copyFile (entryPath e) (destOf req e)
             else Step.moveFile (entryPath e) (destOf req e)),
            Step.log ("❌ Error moviendo " ++ e.filename ++ ": " ++ err)]
            ++ (runLoop req flag rest (i + 1)).1,
           (runLoop req flag rest (i + 1)).2)) := by
  rw [runLoop_cons_go req flag e rest i hflag]
  rw [processEntry_snd req e, hfile, hmedia]
  simp only [Bool.true_and]
  cases hmk : e.makedirsRaises with
  | true =>
      simp only [if_true]
      rw [processEntry_media_crash req e hfile hmedia hmk]
  | false =>
      simp only [Bool.false_eq_true, if_false]
      rw [processEntry_media_ok req e hfile hmedia hmk, herr]

theorem c1_amended_error_handling_witness :
    runLoop ⟨"s", "d", "Año/Mes", true⟩ (fun _ => false)
        [⟨"s", "a.jpg", true, ⟨false, none⟩, ⟨2020, 1, 15, 0, 0, 0⟩, "x",
          false, some "EPERM"⟩] 0
      = ([Step.preview "s/a.jpg", Step.mkdirs "d/2020/01",
          Step.copyFile "s/a.jpg" "d/2020/01/a.jpg",
          Step.log "❌ Error moviendo a.jpg: EPERM"], Outcome.finished) :=
  c1_amended_error_handling ⟨"s", "d", "Año/Mes", true⟩ (fun _ => false)
    ⟨"s", "a.jpg", true, ⟨false, none⟩, ⟨2020, 1, 15, 0, 0, 0⟩, "x", false,
      some "EPERM"⟩ [] 0 "EPERM" rfl rfl (by decide) rfl

/-- C5 counterexample: a run with valid parameters and no cancellation in
which a visited regular file whose extension is in the image set receives
zero relocation attempts: its `os.makedirs` call raises, which aborts the
run before the copy/move is ever attempted. -/
theorem c5_counterexample :
    is_image (entryPath ⟨"s", "a.jpg", true, ⟨false, none⟩,
        ⟨2020, 1, 15, 0, 0, 0⟩, "x", true, none⟩) = true
    ∧ (⟨"s", "a.jpg", true, ⟨false, none⟩, ⟨2020, 1, 15, 0, 0, 0⟩, "x",
        true, none⟩ : FileEntry).isFile = true
    ∧ (run ⟨"s", "d", "Año/Mes", true⟩ (fun _ => false)
        [⟨"s", "a.jpg", true, ⟨false, none⟩, ⟨2020, 1, 15, 0, 0, 0⟩, "x",
          true, none⟩]).1.countP isRelocStep = 0 := by
  decide

/-- C5 amended: in a run with valid parameters, no cancellation, and no
directory-creation failure, the trace is the concatenation of each entry's
per-file steps plus the final completion log; a visited regular file's
per-file steps contain exactly one relocation attempt when its
case-insensitive extension is in the fixed image or video sets and are
completely empty (no relocation, no log, no preview) otherwise. -/
theorem c5_amended_extension_filter (req : Request) (flag : Nat → Bool)
    (entries : List FileEntry) (e : FileEntry)
    (hs : req.source_folder ≠ "") (hd : req.dest_folder ≠ "")
    (hflag : ∀ j, flag j = false)
    (hmk : ∀ x ∈ entries, x.makedirsRaises = false)
    (he : e ∈ entries) (hfile : e.isFile = true) :
    (run req flag entries).1
      = entries.flatMap (fun x => (processEntry req x).1)
          ++ [Step.log "🎉 Organización completada."]
    ∧ (processEntry req e).1.countP isRelocStep
        = (if is_image (entryPath e) || is_video (entryPath e) then 1 else 0)
    ∧ (processEntry req e).1.length
        = (if is_image (entryPath e) || is_video (entryPath e) then 4 else 0) := by
  have hok : ∀ x ∈ entries, (processEntry req x).2 = false := fun x hx => by
    rw [processEntry_snd req x, hmk x hx]
    simp
  have hloop := runLoop_all_ok req flag hflag entries 0 hok
  refine ⟨?_, ?_, ?_⟩
  · rw [run_valid req flag entries hs hd, hloop]
    rfl
  · cases hmedia : (is_image (entryPath e) || is_video (entryPath e)) with
    | false => rw [processEntry_skip_nonmedia req e hmedia]; rfl
    | true =>
        rw [processEntry_media_ok req e hfile hmedia (hmk e he)]
        simp only [if_true]
        cases herr : e.relocateError <;> cases hcopy : req.copy_files <;> rfl
  · cases hmedia : (is_image (entryPath e) || is_video (entryPath e)) with
    | false => rw [processEntry_skip_nonmedia req e hmedia]; rfl
    | true =>
        rw [processEntry_media_ok req e hfile hmedia (hmk e he)]
        rfl

theorem c5_amended_extension_filter_witness :
    (run ⟨"s", "d", "Año/Mes", true⟩ (fun _ => false)
        [⟨"s", "a.jpg", true, ⟨false, none⟩, ⟨2021, 5, 3, 0, 0, 0⟩, "AA",
          false, none⟩,
         ⟨"s", "b.txt", true, ⟨false, none⟩, ⟨2021, 5, 3, 0, 0, 0⟩, "BB",
          false, none⟩]).1
      = [Step.preview "s/a.jpg", Step.mkdirs "d/2021/05",
         Step.copyFile "s/a.jpg" "d/2021/05/a.jpg",
         Step.log "✅ Copiada: a.jpg -> d/2021/05/a.jpg",
         Step.log "🎉 Organización completada."]
    ∧ (processEntry ⟨"s", "d", "Año/Mes", true⟩
        ⟨"s", "b.txt", true, ⟨false, none⟩, ⟨2021, 5, 3, 0, 0, 0⟩, "BB",
          false, none⟩).1.countP isRelocStep = 0
    ∧ (processEntry ⟨"s", "d", "Año/Mes", true⟩
        ⟨"s", "b.txt", true, ⟨false, none⟩, ⟨2021, 5, 3, 0, 0, 0⟩, "BB",
          false, none⟩).1.length = 0 :=
  c5_amended_extension_filter ⟨"s", "d", "Año/Mes", true⟩ (fun _ => false)
    [⟨"s", "a.jpg", true, ⟨false, none⟩, ⟨2021, 5, 3, 0, 0, 0⟩, "AA",
      false, none⟩,
     ⟨"s", "b.txt", true, ⟨false, none⟩, ⟨2021, 5, 3, 0, 0, 0⟩, "BB",
      false, none⟩]
    ⟨"s", "b.txt", true, ⟨false, none⟩, ⟨2021, 5, 3, 0, 0, 0⟩, "BB",
      false, none⟩
    (by decide) (by decide) (fun _ => rfl) (by decide) (by decide) rfl

/-- C4: `get_photo_date` agrees with the spec's capture-date rule on every
input: it returns the parsed `DateTimeOriginal` value exactly when the file
opens as an image and carries that tag with a well-formed value, and the
file's last-modified timestamp in every other case (open fails, no EXIF
data, tag absent, or `strptime` fails — the bare `except` swallows the
error, so nothing is surfaced to the user). -/
theorem c4_capture_date (info : ExifInfo) (mtime : DateTime) :
    get_photo_date info mtime = specCaptureDate info mtime := by
  cases hopen : info.opensAsImage with
  | false => simp [get_photo_date, specCaptureDate, specExifDate, hopen]
  | true =>
      cases hdata : info.exifData with
      | none => simp [get_photo_date, specCaptureDate, specExifDate, hopen, hdata]
      | some tags =>
          cases hfind : findDateTimeOriginal tags with
          | none =>
              simp [get_photo_date, specCaptureDate, specExifDate, hopen,
                hdata, hfind, Option.join]
          | some v =>
              cases v <;>
                simp [get_photo_date, specCaptureDate, specExifDate, hopen,
                  hdata, hfind, Option.join]

/-! ## Helper lemmas: destination-tree writes of a copy-mode run -/

theorem applyWrites_apply (ws : List (String × String)) (fs : FS) (p : String) :
    applyWrites ws fs p
      = (match lastVal p ws with
         | some v => some v
         | none => fs p) := by
  induction ws generalizing fs with
  | nil => rfl
  | cons w rest ih =>
      show applyWrites rest (applyWrite fs w) p = _
      rw [ih]
      cases h : lastVal p rest with
      | some v => simp [lastVal, h]
      | none =>
          simp only [lastVal, h]
          unfold applyWrite
          by_cases hp : p = w.1 <;> simp [hp]

theorem applyWrites_idem (ws : List (String × String)) (fs : FS) :
    applyWrites ws (applyWrites ws fs) = applyWrites ws fs := by
  funext p
  conv_lhs => rw [applyWrites_apply]
  cases h : lastVal p ws with
  | some v => rw [applyWrites_apply, h]
  | none => rfl

theorem copyDests_append (l₁ l₂ : List Step) :
    copyDests (l₁ ++ l₂) = copyDests l₁ ++ copyDests l₂ := by
  induction l₁ with
  | nil => rfl
  | cons s rest ih => cases s <;> simp [copyDests, ih]

theorem runWrites_cons (req : Request) (e : FileEntry)
    (rest : List FileEntry) :
    runWrites req (e :: rest) = entryWrites req e ++ runWrites req rest := by
  simp [runWrites]

theorem entry_copy_facts (req : Request) (e : FileEntry)
    (hcopy : req.copy_files = true) (hmk : e.makedirsRaises = false)
    (herr : e.relocateError = none) :
    copyDests (processEntry req e).1 = (entryWrites req e).map Prod.fst
    ∧ (processEntry req e).1.countP isSuccessLog = (entryWrites req e).length
    ∧ (processEntry req e).1.countP isMoveStep = 0 := by
  cases hfile : e.isFile with
  | false =>
      rw [processEntry_skip_nonfile req e hfile]
      unfold entryWrites
      rw [hfile]
      exact ⟨rfl, rfl, rfl⟩
  | true =>
      cases hmedia : (is_image (entryPath e) || is_video (entryPath e)) with
      | false =>
          rw [processEntry_skip_nonmedia req e hmedia]
          unfold entryWrites
          rw [hfile, hmedia]
          exact ⟨rfl, rfl, rfl⟩
      | true =>
          rw [processEntry_media_ok req e hfile hmedia hmk, herr, hcopy]
          unfold entryWrites
          rw [hfile, hmedia]
          have hsucc : isSuccessLog
              (Step.log ("✅ Copiada: " ++ e.filename ++ " -> " ++ destOf req e))
              = true := by
            show (("✅ Copiada: " ++ e.filename ++ " -> " ++ destOf req e).data.head?
              == some '✅') = true
            rw [head_msg3 "✅ Copiada: " _ _ _ (by decide)]
            rfl
          refine ⟨rfl, ?_, rfl⟩
          simp [List.countP_cons, hsucc, isSuccessLog]

theorem flat_copy_facts (req : Request) (hcopy : req.copy_files = true) :
    ∀ entries : List FileEntry,
      (∀ x ∈ entries, x.makedirsRaises = false) →
      (∀ x ∈ entries, x.relocateError = none) →
      copyDests (entries.flatMap (fun x => (processEntry req x).1))
          = (runWrites req entries).map Prod.fst
      ∧ (entries.flatMap (fun x => (processEntry req x).1)).countP isSuccessLog
          = (runWrites req entries).length
      ∧ (entries.flatMap (fun x => (processEntry req x).1)).countP isMoveStep
          = 0 := by
  intro entries
  induction entries with
  | nil => intro _ _; exact ⟨rfl, rfl, rfl⟩
  | cons e rest ih =>
      intro hmk herr
      obtain ⟨ih1, ih2, ih3⟩ := ih
        (fun x hx => hmk x (List.mem_cons_of_mem e hx))
        (fun x hx => herr x (List.mem_cons_of_mem e hx))
      obtain ⟨h1, h2, h3⟩ := entry_copy_facts req e hcopy
        (hmk e (List.mem_cons_self e rest))
        (herr e (List.mem_cons_self e rest))
      refine ⟨?_, ?_, ?_⟩
      · rw [List.flatMap_cons, copyDests_append, h1, ih1, runWrites_cons,
          List.map_append]
      · rw [List.flatMap_cons, List.countP_append, h2, ih2, runWrites_cons,
          List.length_append]
      · rw [List.flatMap_cons, List.countP_append, h3, ih3]

/-- C8: a copy-mode run over an unchanged source is idempotent on the
destination tree.  With valid parameters, no cancellation and no per-file
failure: (1) replaying the run's destination writes a second time onto the
destination tree produced by the first run leaves it unchanged — each file
is overwritten with identical content; (2) the run's attempted `copy2`
destinations are exactly those writes, in order; (3) the run emits exactly
one success log per relocated file (the run function is deterministic, so a
second run over the same unchanged source produces the identical trace);
and (4) a copy-mode run never moves a file, so it leaves the source tree —
and hence the second run's input — unchanged. -/
theorem c8_copy_idempotent (req : Request) (flag : Nat → Bool)
    (entries : List FileEntry) (fs0 : FS)
    (hcopy : req.copy_files = true)
    (hs : req.source_folder ≠ "") (hd : req.dest_folder ≠ "")
    (hflag : ∀ j, flag j = false)
    (hmk : ∀ x ∈ entries, x.makedirsRaises = false)
    (herr : ∀ x ∈ entries, x.relocateError = none) :
    applyWrites (runWrites req entries)
        (applyWrites (runWrites req entries) fs0)
      = applyWrites (runWrites req entries) fs0
    ∧ copyDests (run req flag entries).1 = (runWrites req entries).map Prod.fst
    ∧ (run req flag entries).1.countP isSuccessLog
        = (runWrites req entries).length
    ∧ (run req flag entries).1.countP isMoveStep = 0 := by
  have hok : ∀ x ∈ entries, (processEntry req x).2 = false := fun x hx => by
    rw [processEntry_snd req x, hmk x hx]
    simp
  have hloop := runLoop_all_ok req flag hflag entries 0 hok
  have htrace : (run req flag entries).1
      = entries.flatMap (fun x => (processEntry req x).1)
          ++ [Step.log "🎉 Organización completada."] := by
    rw [run_valid req flag entries hs hd, hloop]
    rfl
  obtain ⟨h1, h2, h3⟩ := flat_copy_facts req hcopy entries hmk herr
  refine ⟨applyWrites_idem _ _, ?_, ?_, ?_⟩
  · rw [htrace, copyDests_append, h1]
    simp [copyDests]
  · rw [htrace, List.countP_append, h2]
    rfl
  · rw [htrace, List.countP_append, h3]
    rfl

theorem c8_copy_idempotent_witness :
    applyWrites (runWrites ⟨"s", "d", "Año/Mes", true⟩
        [⟨"s", "a.jpg", true, ⟨false, none⟩, ⟨2021, 5, 3, 0, 0, 0⟩, "AA",
          false, none⟩])
        (applyWrites (runWrites ⟨"s", "d", "Año/Mes", true⟩
          [⟨"s", "a.jpg", true, ⟨false, none⟩, ⟨2021, 5, 3, 0, 0, 0⟩, "AA",
            false, none⟩]) (fun _ => none))
      = applyWrites (runWrites ⟨"s", "d", "Año/Mes", true⟩
          [⟨"s", "a.jpg", true, ⟨false, none⟩, ⟨2021, 5, 3, 0, 0, 0⟩, "AA",
            false, none⟩]) (fun _ => none)
    ∧ copyDests (run ⟨"s", "d", "Año/Mes", true⟩ (fun _ => false)
        [⟨"s", "a.jpg", true, ⟨false, none⟩, ⟨2021, 5, 3, 0, 0, 0⟩, "AA",
          false, none⟩]).1
      = (runWrites ⟨"s", "d", "Año/Mes", true⟩
          [⟨"s", "a.jpg", true, ⟨false, none⟩, ⟨2021, 5, 3, 0, 0, 0⟩, "AA",
            false, none⟩]).map Prod.fst
    ∧ (run ⟨"s", "d", "Año/Mes", true⟩ (fun _ => false)
        [⟨"s", "a.jpg", true, ⟨false, none⟩, ⟨2021, 5, 3, 0, 0, 0⟩, "AA",
          false, none⟩]).1.countP isSuccessLog
      = (runWrites ⟨"s", "d", "Año/Mes", true⟩
          [⟨"s", "a.jpg", true, ⟨false, none⟩, ⟨2021, 5, 3, 0, 0, 0⟩, "AA",
            false, none⟩]).length
    ∧ (run ⟨"s", "d", "Año/Mes", true⟩ (fun _ => false)
        [⟨"s", "a.jpg", true, ⟨false, none⟩, ⟨2021, 5, 3, 0, 0, 0⟩, "AA",
          false, none⟩]).1.countP isMoveStep = 0 :=
  c8_copy_idempotent ⟨"s", "d", "Año/Mes", true⟩ (fun _ => false)
    [⟨"s", "a.jpg", true, ⟨false, none⟩, ⟨2021, 5, 3, 0, 0, 0⟩, "AA",
      false, none⟩] (fun _ => none) rfl (by decide) (by decide)
    (fun _ => rfl) (by decide) (by decide)
